import Mathlib

/-!
Verification development for the vault-dash log monitor.

The definitions below are a shallow embedding of the Rust sources
`src/custom/app.rs` and `src/bin/logtail-crossterm.rs`:

* `LogEntry.decode` / `LogEntry.parse_info_line` embed the line decoder built
  on the regex `LOG_LINE_PATTERN`.
* `VaultMetrics` and its operations (`gather_metrics`, `parse_start`,
  `parse_states`, `parse_counts`) embed the metrics engine.
* `LogMonitor` with `append_to_content`, `process_line` and `load_logfile`
  embeds the per-file monitor with its bounded content store.
* `handle_live_line` embeds the dispatcher's handling of a live tailed line.
* `tickCheck` / `tickIteration` embed the two consecutive elapsed-time checks
  of the event multiplexer's background loop, with the time elapsing between
  program points made an explicit parameter.

Rust machine integers (`usize`) are modelled as `Nat`; none of the modelled
code performs arithmetic that can overflow in practice (lengths and counts).
Strings are processed through their character lists (`String.data`); all the
text the program matches against is ASCII, where Rust's byte indexing and
character indexing coincide.
-/

/-- Decides whether a character is an ASCII digit, as matched by the regex
class `\d` (ASCII in the patterns used by the program). -/
def digit? (c : Char) : Bool := decide ('0' ≤ c ∧ c ≤ '9')

/-- Decides whether a character is an ASCII letter, as matched by the regex
class `[[:alpha:]]`. -/
def alpha? (c : Char) : Bool :=
  decide (('a' ≤ c ∧ c ≤ 'z') ∨ ('A' ≤ c ∧ c ≤ 'Z'))

/-- Decides whether a character is an ASCII uppercase letter, as matched by
the regex class `[A-Z]`. -/
def upperAZ? (c : Char) : Bool := decide ('A' ≤ c ∧ c ≤ 'Z')

/-- Numeric value of a list of ASCII digit characters, most significant
first. -/
def digitsVal (ds : List Char) : Nat :=
  ds.foldl (fun acc c => acc * 10 + (c.toNat - '0'.toNat)) 0

/-- Model of `chrono::DateTime<chrono::FixedOffset>` (an external library
type): a parsed calendar date-time together with a fixed UTC offset in
minutes. Only the fields relevant to parsing and comparison are kept. -/
structure Timestamp where
  year : Nat
  month : Nat
  day : Nat
  hour : Nat
  minute : Nat
  second : Nat
  nanos : Nat
  offsetMinutes : Int
deriving DecidableEq, Repr

/-- Reads exactly `n` ASCII digits from the front of `cs`, returning their
value and the remaining characters. -/
def readFixed (n : Nat) (cs : List Char) : Option (Nat × List Char) :=
  let ds := cs.take n
  if ds.length == n && ds.all digit? then
    some (digitsVal ds, cs.drop n)
  else none

/-- Gregorian leap-year test, as used by chrono's calendar validation. -/
def isLeapYear (y : Nat) : Bool :=
  (y % 4 == 0 && y % 100 != 0) || y % 400 == 0

/-- Number of days in a month of a given year. -/
def daysInMonth (y m : Nat) : Nat :=
  if m == 2 then (if isLeapYear y then 29 else 28)
  else if m == 4 || m == 6 || m == 9 || m == 11 then 30
  else 31

/-- Reads an optional fractional-second field: a dot followed by at least one
digit. Returns the value in nanoseconds (the first nine digits, right-padded
with zeros) and the remaining characters; absence of a dot reads nothing. -/
def readFrac (cs : List Char) : Option (Nat × List Char) :=
  match cs with
  | '.' :: rest =>
    let ds := rest.takeWhile digit?
    if ds.isEmpty then none
    else some (digitsVal (ds.take 9 ++ List.replicate (9 - ds.length) '0'),
               rest.drop ds.length)
  | _ => some (0, cs)

/-- Reads an RFC 3339 offset ending the string: `Z`/`z` for UTC or a signed
`HH:MM` offset. Returns the offset in minutes east of UTC. -/
def readOffset (cs : List Char) : Option Int :=
  match cs with
  | ['Z'] => some 0
  | ['z'] => some 0
  | sign :: rest =>
    if sign == '+' || sign == '-' then
      match readFixed 2 rest with
      | some (oh, ':' :: rest2) =>
        match readFixed 2 rest2 with
        | some (om, []) =>
          if oh ≤ 23 ∧ om ≤ 59 then
            let mins : Int := (oh * 60 + om : Nat)
            some (if sign == '+' then mins else -mins)
          else none
        | _ => none
      | _ => none
    else none
  | [] => none

/-- Model of `chrono::DateTime::<FixedOffset>::parse_from_rfc3339` (an
external library function): parses `YYYY-MM-DDTHH:MM:SS[.fff...]OFFSET`,
validating calendar ranges, and requires the whole string to be consumed. -/
def parseRFC3339 (s : String) : Option Timestamp :=
  match readFixed 4 s.data with
  | some (y, '-' :: r1) =>
    match readFixed 2 r1 with
    | some (mo, '-' :: r2) =>
      match readFixed 2 r2 with
      | some (d, tch :: r3) =>
        if tch == 'T' || tch == 't' then
          match readFixed 2 r3 with
          | some (h, ':' :: r4) =>
            match readFixed 2 r4 with
            | some (mi, ':' :: r5) =>
              match readFixed 2 r5 with
              | some (sec, r6) =>
                match readFrac r6 with
                | some (ns, r7) =>
                  match readOffset r7 with
                  | some off =>
                    if 1 ≤ mo ∧ mo ≤ 12 ∧ 1 ≤ d ∧ d ≤ daysInMonth y mo ∧
                       h ≤ 23 ∧ mi ≤ 59 ∧ sec ≤ 60 then
                      some ⟨y, mo, d, h, mi, sec, ns, off⟩
                    else none
                  | none => none
                | none => none
              | _ => none
            | _ => none
          | _ => none
        else none
      | _ => none
    | _ => none
  | _ => none

/-- Left-pads the decimal rendering of `n` with zeros to the given width. -/
def padNum (width n : Nat) : String :=
  let s := toString n
  String.mk (List.replicate (width - s.length) '0') ++ s

/-- Fractional-second rendering used by chrono's display formatting
(`%.f`): empty when zero, otherwise 3, 6 or 9 digits as needed. -/
def fracDisplay (ns : Nat) : String :=
  if ns == 0 then ""
  else if ns % 1000000 == 0 then "." ++ padNum 3 (ns / 1000000)
  else if ns % 1000 == 0 then "." ++ padNum 6 (ns / 1000)
  else "." ++ padNum 9 ns

/-- Offset rendering used by chrono's display formatting (`%:z`). -/
def offsetDisplay (mins : Int) : String :=
  let sign := if mins < 0 then "-" else "+"
  let a := mins.natAbs
  sign ++ padNum 2 (a / 60) ++ ":" ++ padNum 2 (a % 60)

/-- Model of the `Display` rendering of `chrono::DateTime<FixedOffset>`
(an external library), used by the program only inside diagnostic
strings built with `format!`. -/
def timestampDisplay (t : Timestamp) : String :=
  padNum 4 t.year ++ "-" ++ padNum 2 t.month ++ "-" ++ padNum 2 t.day ++ " " ++
  padNum 2 t.hour ++ ":" ++ padNum 2 t.minute ++ ":" ++ padNum 2 t.second ++
  fracDisplay t.nanos ++ " " ++ offsetDisplay t.offsetMinutes

/-- Embeds the Rust struct `LogEntry` of `src/custom/app.rs`: a decoded
logfile entry for the vault timeline metric. -/
structure LogEntry where
  logstring : String
  category : String
  time : Option Timestamp
  source : String
  message : String
  parser_output : String
deriving DecidableEq, Repr

/-- Index of the last position `j` in the list with `l[j] = ']'` followed
directly by a space. This is where the greedy `\[.*\] ` of
`LOG_LINE_PATTERN` places the closing bracket of the source capture. -/
def lastCloseIdx : List Char → Option Nat
  | [] => none
  | c :: rest =>
    match lastCloseIdx rest with
    | some j => some (j + 1)
    | none =>
      match c, rest with
      | ']', ' ' :: _ => some 0
      | _, _ => none

/-- Embeds matching a line against the regex `LOG_LINE_PATTERN` of
`src/custom/app.rs`:

`(?P<category>^[A-Z]{4}) (?P<time_string>[^ ]{35}) (?P<source>\[.*\]) (?P<message>.*)`

Returns the four captures (category, time string, source, message) on a
match. The regex wildcard does not match a newline, so the source capture
must close before the first newline after it and the greedy message capture
stops at the next newline. -/
def logLineCaptures (line : String) : Option (String × String × String × String) :=
  match line.data with
  | c0 :: c1 :: c2 :: c3 :: c4 :: rest =>
    if upperAZ? c0 && upperAZ? c1 && upperAZ? c2 && upperAZ? c3 && c4 == ' ' then
      let ts := rest.take 35
      if ts.length == 35 && ts.all (fun c => c != ' ') then
        match rest.drop 35 with
        | ' ' :: '[' :: region =>
          let p := region.takeWhile (fun c => c != '\n')
          match lastCloseIdx p with
          | some j =>
            some (String.mk [c0, c1, c2, c3], String.mk ts,
                  String.mk ('[' :: p.take (j + 1)),
                  String.mk ((region.drop (j + 2)).takeWhile (fun c => c != '\n')))
          | none => none
        | _ => none
      else none
    else none
  | _ => none

/-- Embeds `LogEntry::parse_info_line` of `src/custom/app.rs`: on a
`LOG_LINE_PATTERN` match, builds a `LogEntry` from the four captures; a
timestamp field that fails to parse yields `time = none` rather than
rejecting the line. -/
def LogEntry.parse_info_line (line : String) : Option LogEntry :=
  match logLineCaptures line with
  | none => none
  | some (category, time_string, source, message) =>
    let time := parseRFC3339 time_string
    let time_str := match time with
      | some t => timestampDisplay t
      | none => "None"
    some { logstring := line, category := category, time := time,
           source := source, message := message,
           parser_output :=
             "c: " ++ category ++ ", t: " ++ time_str ++ ", s: " ++ source ++
             ", m: " ++ message }

/-- Embeds `LogEntry::decode` of `src/custom/app.rs`: rejects the empty line,
otherwise defers to `parse_info_line`. -/
def LogEntry.decode (line : String) : Option LogEntry :=
  if line.isEmpty then none
  else LogEntry.parse_info_line line

/-- Tokens of a literal-with-wildcard pattern: a literal character or the
regex wildcard, which matches any character except a newline. -/
inductive Pat where
  | lit : Char → Pat
  | dot : Pat
deriving DecidableEq, Repr

/-- Matches a wildcard pattern against the front of a character list,
returning the remainder on success. -/
def patMatch : List Pat → List Char → Option (List Char)
  | [], cs => some cs
  | _ :: _, [] => none
  | p :: ps, c :: cs =>
    match p with
    | .lit l => if l == c then patMatch ps cs else none
    | .dot => if c == '\n' then none else patMatch ps cs

/-- Literal pattern for a string. -/
def litPat (s : String) : List Pat := s.data.map Pat.lit

/-- Finds the first position at which the pattern matches, returning the
characters after the match. -/
def findPat (ps : List Pat) : List Char → Option (List Char)
  | [] => patMatch ps []
  | c :: cs =>
    match patMatch ps (c :: cs) with
    | some r => some r
    | none => findPat ps cs

/-- Finds the first position at which `key` matches followed by at least one
character accepted by `tok`, and returns the maximal such run (the capture of
a greedy `\d+` or `[[:alpha:]]+` directly after the key).

The real regex engine resolves the greedy `.*` in front of the key towards
the rightmost viable occurrence; a viable occurrence exists for this function
exactly when one exists for the engine, so match success coincides, and on
the log lines the program recognizes (one report per line) the captured run
coincides as well. -/
def findCapture (key : List Pat) (tok : Char → Bool) : List Char → Option (List Char)
  | [] => none
  | c :: cs =>
    match patMatch key (c :: cs) with
    | some r =>
      let run := r.takeWhile tok
      if run.isEmpty then findCapture key tok cs else some run
    | none => findCapture key tok cs

/-- Which alternative of the state regex of `VaultMetrics::parse_states`
matched, together with its capture:

`^.*vault\.rs.*No. of Elders: (?P<elders>\d+)` `|`
`^.*vault\.rs.*No. of Adults: (?P<adults>\d+)` `|`
`^.*vault\.rs.*Initializing new Vault as (?P<initas>[[:alpha:]]+)` `|`
`^.*vault\.rs.*Vault promoted to (?P<promoteto>[[:alpha:]]+)` -/
inductive StateCapture where
  | elders (count : List Char)
  | adults (count : List Char)
  | initas (bracket : List Char)
  | promoteto (bracket : List Char)
deriving DecidableEq, Repr

/-- Key of the elder-count alternative: `No. of Elders: ` with the regex
wildcard for the dot after `No`. -/
def eldersKey : List Pat := litPat "No" ++ [Pat.dot] ++ litPat " of Elders: "

/-- Key of the adult-count alternative: `No. of Adults: ` with the regex
wildcard for the dot after `No`. -/
def adultsKey : List Pat := litPat "No" ++ [Pat.dot] ++ litPat " of Adults: "

/-- Key of the initializing alternative. -/
def initasKey : List Pat := litPat "Initializing new Vault as "

/-- Key of the promotion alternative. -/
def promoteKey : List Pat := litPat "Vault promoted to "

/-- Embeds matching a raw line against the state regex of
`VaultMetrics::parse_states` (alternatives tried leftmost-first). Every
alternative starts with `^.*vault\.rs.*` whose wildcards cannot cross a
newline, so the whole match lives in the first line of the text: after the
first occurrence of the literal `vault.rs` there, each key with its
non-empty capture is searched in turn. -/
def stateCaptures (logstring : String) : Option StateCapture :=
  let t := logstring.data.takeWhile (fun c => c != '\n')
  match findPat (litPat "vault.rs") t with
  | none => none
  | some r =>
    match findCapture eldersKey digit? r with
    | some d => some (.elders d)
    | none =>
      match findCapture adultsKey digit? r with
      | some d => some (.adults d)
      | none =>
        match findCapture initasKey alpha? r with
        | some w => some (.initas w)
        | none =>
          match findCapture promoteKey alpha? r with
          | some w => some (.promoteto w)
          | none => none

/-- Embeds the Rust enum `VaultAgebracket` of `src/custom/app.rs`. -/
inductive VaultAgebracket where
  | Unknown
  | Child
  | Adult
  | Elder
deriving DecidableEq, Repr

/-- Embeds the `match` on the captured agebracket word inside
`VaultMetrics::parse_states`. -/
def bracketFromString (s : String) : VaultAgebracket :=
  if s == "Child" then .Child
  else if s == "Adult" then .Adult
  else if s == "Elder" then .Elder
  else .Unknown

/-- Embeds the Rust struct `VaultMetrics` of `src/custom/app.rs`. The
`HashMap<String, usize>` field `category_count` is modelled as an
association list; the optional debug scratch file `debug_logfile` is an
I/O handle used only to echo `parser_output` lines and is omitted. -/
structure VaultMetrics where
  vault_started : Option Timestamp
  running_message : Option String
  running_version : Option String
  category_count : List (String × Nat)
  timeline : List LogEntry
  most_recent : Option Timestamp
  agebracket : VaultAgebracket
  adults : Nat
  elders : Nat
  parser_output : String
deriving DecidableEq, Repr

/-- Embeds `VaultMetrics::new`. -/
def VaultMetrics.new : VaultMetrics :=
  { vault_started := none
    running_message := none
    running_version := none
    timeline := []
    most_recent := none
    category_count := []
    agebracket := .Child
    adults := 0
    elders := 0
    parser_output := "-" }

/-- The literal prefix `running_prefix` of `VaultMetrics::parse_start`. -/
def startBanner : String := "Running safe-vault "

/-- Embeds `VaultMetrics::parse_start`: on the start banner, records the
whole line, the version remainder and the start timestamp into the metrics
state and returns a synthetic `START` entry; otherwise leaves the state
unchanged and returns no entry. -/
def VaultMetrics.parse_start (m : VaultMetrics) (line : String) :
    VaultMetrics × Option LogEntry :=
  if startBanner.data.isPrefixOf line.data then
    let m' := { m with
      running_message := some line
      running_version := some (String.mk (line.data.drop startBanner.length))
      vault_started := m.most_recent }
    let po := "START at " ++
      (match m.most_recent with
       | some t => timestampDisplay t
       | none => "None")
    (m', some { logstring := line, category := "START", time := m.most_recent,
                source := "", message := line, parser_output := po })
  else (m, none)

/-- Embeds `VaultMetrics::parse_states`: matches the entry's raw text
against the state regex and mirrors the Rust branch chain on the captured
groups (a matched alternative always has a non-empty capture, so the chain
order is the alternative order). Returns the updated metrics and the
`updated` flag. -/
def VaultMetrics.parse_states (m : VaultMetrics) (entry : LogEntry) :
    VaultMetrics × Bool :=
  match stateCaptures entry.logstring with
  | none => (m, false)
  | some (.elders d) =>
    ({ m with parser_output := "ELDERS: " ++ String.mk d }, true)
  | some (.adults d) =>
    ({ m with parser_output := "ADULTS: " ++ String.mk d }, true)
  | some (.initas w) | some (.promoteto w) =>
    ({ m with parser_output := "Vault agebracket: " ++ String.mk w
              agebracket := bracketFromString (String.mk w) }, true)

/-- Embeds `VaultMetrics::parse_counts`, whose Rust body is empty. -/
def VaultMetrics.parse_counts (m : VaultMetrics) (_entry : LogEntry) :
    VaultMetrics := m

/-- Embeds the body of the `if let Some(mut entry)` block of
`VaultMetrics::gather_metrics`: an entry without its own timestamp inherits
`most_recent`, an entry with one updates `most_recent`; then
`parser_output` is overwritten with the entry's, `parse_states` runs, and
the entry is pushed onto the timeline. -/
def VaultMetrics.gatherEntry (m : VaultMetrics) (e : LogEntry) : VaultMetrics :=
  let e1 := match e.time with
    | none => { e with time := m.most_recent }
    | some _ => e
  let m1 := match e.time with
    | none => m
    | some t => { m with most_recent := some t }
  let m2 := { m1 with parser_output := e1.parser_output }
  let m3 := (VaultMetrics.parse_states m2 e1).1
  { m3 with timeline := m3.timeline ++ [e1] }

/-- Embeds `VaultMetrics::gather_metrics`: decodes the line, falling back to
`parse_start` (whose state effects happen only when the primary decode
failed, mirroring `or_else`), and processes any produced entry. The echo of
`parser_output` to the optional debug scratch file is omitted. -/
def VaultMetrics.gather_metrics (m : VaultMetrics) (line : String) : VaultMetrics :=
  match LogEntry.decode line with
  | some e => VaultMetrics.gatherEntry m e
  | none =>
    match VaultMetrics.parse_start m line with
    | (m', some e) => VaultMetrics.gatherEntry m' e
    | (m', none) => m'

/-- The list-level content update performed by
`LogMonitor::append_to_content`: push the line, then if the length exceeds
the capacity keep only the last `max_content` entries (Rust's
`split_off(len - max_content)` reassigned to the items). -/
def boundedAppend (max_content : Nat) (items : List String) (text : String) :
    List String :=
  let pushed := items ++ [text]
  if max_content < pushed.length then
    pushed.drop (pushed.length - max_content)
  else pushed

/-- Embeds the Rust struct `LogMonitor` of `src/custom/app.rs`. The
`StatefulList<String>` content (from the shared utility module, not part of
the sources) is modelled by its ordered items list, the only part the
modelled operations touch. -/
structure LogMonitor where
  index : Nat
  content : List String
  logfile : String
  metrics : VaultMetrics
  max_content : Nat
deriving DecidableEq, Repr

/-- Embeds `LogMonitor::new`; the index drawn from the process-wide atomic
counter `NEXT_MONITOR` is passed explicitly. -/
def LogMonitor.new (f : String) (max_lines : Nat) (index : Nat) : LogMonitor :=
  { index := index
    logfile := f
    max_content := max_lines
    metrics := VaultMetrics.new
    content := [] }

/-- Embeds `LogMonitor::append_to_content` (always returns `Ok(())` in
Rust, so the result is just the updated monitor). -/
def LogMonitor.append_to_content (mon : LogMonitor) (text : String) : LogMonitor :=
  { mon with content := boundedAppend mon.max_content mon.content text }

/-- Embeds `LogMonitor::process_line`: gather metrics from the line, then
append it to the content store. -/
def LogMonitor.process_line (mon : LogMonitor) (line : String) : LogMonitor :=
  let mon' := { mon with metrics := VaultMetrics.gather_metrics mon.metrics line }
  mon'.append_to_content line

/-- Error kinds of `std::io::Error` distinguished in this development. -/
inductive IOErrorKind where
  | notFound
  | permissionDenied
  | otherKind (msg : String)
deriving DecidableEq, Repr

/-- Embeds `LogMonitor::load_logfile` with the outcome of `File::open`
passed explicitly: `Except.error` for an open failure, `Except.ok lines`
for a successfully opened file with the given lines. The Rust code returns
`Ok(())` on ANY open error (`Err(_e) => return Ok(())`), and otherwise
processes every line; the `?` on `process_line` can only signal failures of
the optional debug scratch file, which is omitted from the model, so the
line loop always succeeds here. -/
def LogMonitor.load_logfile (openResult : Except IOErrorKind (List String))
    (mon : LogMonitor) : Except IOErrorKind LogMonitor :=
  match openResult with
  | .error _ => .ok mon
  | .ok lines => .ok (lines.foldl LogMonitor.process_line mon)

/-- Embeds the live-line arm of the dispatcher's `select!` in
`src/bin/logtail-crossterm.rs`: look up the source path in the monitors map
(modelled as an association list with the map's unique keys); if a monitor
is registered, append the line to its content store; otherwise do nothing. -/
def handle_live_line (monitors : List (String × LogMonitor))
    (source line : String) : List (String × LogMonitor) :=
  monitors.map (fun p =>
    if p.1 = source then (p.1, p.2.append_to_content line) else p)

/-- Embeds one elapsed-time check of the background loop of
`initialise_events`: the state is (time since the last deadline reset,
ticks sent so far, deadline advances so far); when a full tick interval has
elapsed, a Tick is sent and the deadline is reset. The channel send is
assumed to succeed, in which case both branches of the two Rust checks send
once and reset `last_tick` once. -/
def tickCheck (tick_rate : Nat) (st : Nat × Nat × Nat) : Nat × Nat × Nat :=
  if tick_rate ≤ st.1 then (0, st.2.1 + 1, st.2.2 + 1) else st

/-- Embeds the two consecutive elapsed-time checks of one iteration of the
background loop of `initialise_events`. `e1` is the time elapsed since the
last deadline reset when the first check runs; `d` is the additional time
elapsing between the first and the second check (scheduling delay). -/
def tickIteration (tick_rate e1 d : Nat) : Nat × Nat × Nat :=
  let st1 := tickCheck tick_rate (e1, 0, 0)
  tickCheck tick_rate (st1.1 + d, st1.2.1, st1.2.2)

theorem boundedAppend_eq_drop (N : Nat) (c : List String) (x : String) :
    boundedAppend N c x = (c ++ [x]).drop (c.length + 1 - N) := by
  unfold boundedAppend
  by_cases hlt : N < (c ++ [x]).length
  · rw [if_pos hlt]
    simp only [List.length_append, List.length_singleton]
  · rw [if_neg hlt]
    simp only [List.length_append, List.length_singleton, not_lt] at hlt
    have h0 : c.length + 1 - N = 0 := by omega
    rw [h0, List.drop_zero]

theorem foldl_boundedAppend_eq_drop (N : Nat) (ls : List String) :
    ∀ c : List String, c.length ≤ N →
      List.foldl (boundedAppend N) c ls
        = (c ++ ls).drop (c.length + ls.length - N) := by
  induction ls with
  | nil =>
    intro c h
    have h0 : c.length - N = 0 := by omega
    simp [h0]
  | cons x rest ih =>
    intro c h
    rw [List.foldl_cons]
    have hstep := boundedAppend_eq_drop N c x
    have hlen : (boundedAppend N c x).length = c.length + 1 - (c.length + 1 - N) := by
      rw [hstep, List.length_drop, List.length_append, List.length_singleton]
    have hle : (boundedAppend N c x).length ≤ N := by rw [hlen]; omega
    have hd : c.length + 1 - N ≤ (c ++ [x]).length := by
      rw [List.length_append, List.length_singleton]; omega
    rw [ih (boundedAppend N c x) hle, hstep, List.length_drop,
        ← List.drop_append_of_le_length hd, List.drop_drop]
    have hl : c ++ [x] ++ rest = c ++ x :: rest := by simp
    rw [hl]
    congr 1
    simp only [List.length_append, List.length_singleton, List.length_cons,
      List.length_nil]
    omega

theorem foldl_append_to_content_spec (ls : List String) :
    ∀ mon : LogMonitor,
      (List.foldl LogMonitor.append_to_content mon ls).content
          = List.foldl (boundedAppend mon.max_content) mon.content ls ∧
      (List.foldl LogMonitor.append_to_content mon ls).max_content
          = mon.max_content := by
  induction ls with
  | nil => intro mon; exact ⟨rfl, rfl⟩
  | cons x rest ih =>
    intro mon
    rw [List.foldl_cons, List.foldl_cons]
    exact ih (mon.append_to_content x)

/-- C1: for every capacity N ≥ 0 and every sequence of lines passed to
`LogMonitor::append_to_content`, the content store's length never exceeds N
(after every prefix of the sequence), and after the whole sequence its
contents equal the last min(N, total-appended) appended lines in their
original append order (i.e. the sequence with its first `length - N`
elements dropped). -/
theorem c1_bounded_content_store (N idx : Nat) (f : String) (ls : List String) :
    (∀ pre suf : List String, ls = pre ++ suf →
      (List.foldl LogMonitor.append_to_content (LogMonitor.new f N idx) pre).content.length ≤ N) ∧
    (List.foldl LogMonitor.append_to_content (LogMonitor.new f N idx) ls).content
      = ls.drop (ls.length - N) := by
  have hmax : (LogMonitor.new f N idx).max_content = N := rfl
  have hcontent : (LogMonitor.new f N idx).content = [] := rfl
  have key : ∀ xs : List String,
      (List.foldl LogMonitor.append_to_content (LogMonitor.new f N idx) xs).content
        = xs.drop (xs.length - N) := by
    intro xs
    rw [(foldl_append_to_content_spec xs (LogMonitor.new f N idx)).1, hmax, hcontent]
    have := foldl_boundedAppend_eq_drop N xs [] (by simp)
    simpa using this
  refine ⟨?_, key ls⟩
  intro pre suf _
  rw [key pre, List.length_drop]
  omega

theorem c1_bounded_content_store_witness :
    ((["a", "b", "c"] : List String) = ["a", "b"] ++ ["c"] →
      (List.foldl LogMonitor.append_to_content (LogMonitor.new "f" 2 0)
        ["a", "b"]).content.length ≤ 2) ∧
    (List.foldl LogMonitor.append_to_content (LogMonitor.new "f" 2 0)
        ["a", "b", "c"]).content = ["b", "c"] := by
  have h := c1_bounded_content_store 2 0 "f" ["a", "b", "c"]
  exact ⟨fun he => h.1 ["a", "b"] ["c"] he, h.2⟩

theorem parse_states_frame (m : VaultMetrics) (e : LogEntry) :
    ((VaultMetrics.parse_states m e).1.vault_started = m.vault_started) ∧
    ((VaultMetrics.parse_states m e).1.running_message = m.running_message) ∧
    ((VaultMetrics.parse_states m e).1.running_version = m.running_version) ∧
    ((VaultMetrics.parse_states m e).1.category_count = m.category_count) ∧
    ((VaultMetrics.parse_states m e).1.timeline = m.timeline) ∧
    ((VaultMetrics.parse_states m e).1.most_recent = m.most_recent) ∧
    ((VaultMetrics.parse_states m e).1.adults = m.adults) ∧
    ((VaultMetrics.parse_states m e).1.elders = m.elders) := by
  cases h : stateCaptures e.logstring with
  | none => simp [VaultMetrics.parse_states, h]
  | some c => cases c <;> simp [VaultMetrics.parse_states, h]

theorem parse_start_frame (m : VaultMetrics) (line : String) :
    ((VaultMetrics.parse_start m line).1.category_count = m.category_count) ∧
    ((VaultMetrics.parse_start m line).1.most_recent = m.most_recent) ∧
    ((VaultMetrics.parse_start m line).1.timeline = m.timeline) ∧
    ((VaultMetrics.parse_start m line).1.agebracket = m.agebracket) ∧
    ((VaultMetrics.parse_start m line).1.adults = m.adults) ∧
    ((VaultMetrics.parse_start m line).1.elders = m.elders) ∧
    ((VaultMetrics.parse_start m line).1.parser_output = m.parser_output) := by
  by_cases h : startBanner.data.isPrefixOf line.data <;>
    simp [VaultMetrics.parse_start, h]

theorem parse_start_some_spec (m : VaultMetrics) (line : String)
    (m' : VaultMetrics) (e : LogEntry)
    (h : VaultMetrics.parse_start m line = (m', some e)) :
    e.time = m.most_recent ∧ e.category = "START" ∧ e.message = line ∧
    e.logstring = line ∧
    m'.most_recent = m.most_recent ∧
    m'.timeline = m.timeline ∧
    m'.running_message = some line ∧
    m'.running_version = some (String.mk (line.data.drop startBanner.length)) ∧
    m'.vault_started = m.most_recent := by
  by_cases hp : startBanner.data.isPrefixOf line.data
  · simp only [VaultMetrics.parse_start, hp, if_true, Prod.mk.injEq,
      Option.some.injEq] at h
    obtain ⟨hm, he⟩ := h
    subst hm he
    exact ⟨rfl, rfl, rfl, rfl, rfl, rfl, rfl, rfl, rfl⟩
  · simp [VaultMetrics.parse_start, hp] at h

theorem gatherEntry_frame (m : VaultMetrics) (e : LogEntry) :
    ((VaultMetrics.gatherEntry m e).vault_started = m.vault_started) ∧
    ((VaultMetrics.gatherEntry m e).running_message = m.running_message) ∧
    ((VaultMetrics.gatherEntry m e).running_version = m.running_version) ∧
    ((VaultMetrics.gatherEntry m e).category_count = m.category_count) ∧
    ((VaultMetrics.gatherEntry m e).adults = m.adults) ∧
    ((VaultMetrics.gatherEntry m e).elders = m.elders) := by
  cases ht : e.time <;> simp [VaultMetrics.gatherEntry, ht, parse_states_frame]

theorem gatherEntry_timeline_none (m : VaultMetrics) (e : LogEntry)
    (h : e.time = none) :
    (VaultMetrics.gatherEntry m e).timeline
        = m.timeline ++ [{ e with time := m.most_recent }] ∧
    (VaultMetrics.gatherEntry m e).most_recent = m.most_recent := by
  simp [VaultMetrics.gatherEntry, h, parse_states_frame]

theorem gatherEntry_timeline_some (m : VaultMetrics) (e : LogEntry) (t : Timestamp)
    (h : e.time = some t) :
    (VaultMetrics.gatherEntry m e).timeline = m.timeline ++ [e] ∧
    (VaultMetrics.gatherEntry m e).most_recent = some t := by
  simp [VaultMetrics.gatherEntry, h, parse_states_frame]

theorem gatherEntry_timeline_fields (m : VaultMetrics) (e : LogEntry) :
    ∃ e1 : LogEntry,
      (VaultMetrics.gatherEntry m e).timeline = m.timeline ++ [e1] ∧
      e1.category = e.category ∧ e1.message = e.message ∧
      e1.logstring = e.logstring ∧ e1.source = e.source ∧
      e1.time = (match e.time with | none => m.most_recent | some t => some t) := by
  cases ht : e.time with
  | none =>
    exact ⟨{ e with time := m.most_recent },
      (gatherEntry_timeline_none m e ht).1, rfl, rfl, rfl, rfl, rfl⟩
  | some t =>
    exact ⟨e, (gatherEntry_timeline_some m e t ht).1, rfl, rfl, rfl, rfl, ht⟩

theorem gather_metrics_decode_some (m : VaultMetrics) (line : String) (e : LogEntry)
    (h : LogEntry.decode line = some e) :
    VaultMetrics.gather_metrics m line = VaultMetrics.gatherEntry m e := by
  unfold VaultMetrics.gather_metrics
  rw [h]

theorem gather_metrics_decode_none (m : VaultMetrics) (line : String)
    (h : LogEntry.decode line = none) :
    VaultMetrics.gather_metrics m line
      = (match VaultMetrics.parse_start m line with
         | (m', some e) => VaultMetrics.gatherEntry m' e
         | (m', none) => m') := by
  unfold VaultMetrics.gather_metrics
  rw [h]

theorem gather_metrics_frame (m : VaultMetrics) (line : String) :
    ((VaultMetrics.gather_metrics m line).category_count = m.category_count) ∧
    ((VaultMetrics.gather_metrics m line).adults = m.adults) ∧
    ((VaultMetrics.gather_metrics m line).elders = m.elders) := by
  cases hd : LogEntry.decode line with
  | some e =>
    rw [gather_metrics_decode_some m line e hd]
    exact ⟨(gatherEntry_frame m e).2.2.2.1, (gatherEntry_frame m e).2.2.2.2.1,
      (gatherEntry_frame m e).2.2.2.2.2⟩
  | none =>
    rw [gather_metrics_decode_none m line hd]
    rcases hp : VaultMetrics.parse_start m line with ⟨m', oe⟩
    have hf := parse_start_frame m line
    rw [hp] at hf
    cases oe with
    | some e =>
      simp only
      exact ⟨(gatherEntry_frame m' e).2.2.2.1.trans hf.1,
        ((gatherEntry_frame m' e).2.2.2.2.1).trans hf.2.2.2.2.1,
        ((gatherEntry_frame m' e).2.2.2.2.2).trans hf.2.2.2.2.2.1⟩
    | none =>
      simp only
      exact ⟨hf.1, hf.2.2.2.2.1, hf.2.2.2.2.2.1⟩

/-- C10: for every sequence of lines fed to `VaultMetrics::gather_metrics`,
the `category_count` map is never inserted into or modified (it stays what
it was, in particular empty when starting from `VaultMetrics::new`, whose
map is empty), and `parse_counts` is a no-op. -/
theorem c10_category_count_never_touched (m : VaultMetrics) (e : LogEntry)
    (ls : List String) :
    VaultMetrics.new.category_count = [] ∧
    VaultMetrics.parse_counts m e = m ∧
    (List.foldl VaultMetrics.gather_metrics m ls).category_count
      = m.category_count := by
  refine ⟨rfl, rfl, ?_⟩
  induction ls generalizing m with
  | nil => rfl
  | cons l rest ih =>
    rw [List.foldl_cons, ih, (gather_metrics_frame m l).1]

/-- Concrete log lines reporting an elder count and an adult count, in the
shape `VaultMetrics::parse_states` recognizes. -/
def eldersReportLine : String :=
  "INFO 2020-07-08T19:58:26.841778689+01:00 [src/vault.rs:132] No. of Elders: 7"

def adultsReportLine : String :=
  "INFO 2020-07-08T19:58:26.841778689+01:00 [src/vault.rs:132] No. of Adults: 11"

/-- C2: processing a recognized elder-count or adult-count report does NOT
record the reported count in the metrics state: `parse_states` only writes
the diagnostic string (`ELDERS: n` / `ADULTS: n`) and the `elders` /
`adults` fields are never assigned by any parsing path (first conjunct:
they are invariant under `gather_metrics` on every line whatsoever). The
lifecycle bracket is indeed left unchanged. This contradicts the claim's
"records the reported count in its elder count / adult count state". -/
theorem c2_count_reports_not_recorded :
    (∀ (m : VaultMetrics) (line : String),
      (VaultMetrics.gather_metrics m line).elders = m.elders ∧
      (VaultMetrics.gather_metrics m line).adults = m.adults) ∧
    stateCaptures eldersReportLine = some (.elders ['7']) ∧
    (VaultMetrics.gather_metrics VaultMetrics.new eldersReportLine).elders = 0 ∧
    (VaultMetrics.gather_metrics VaultMetrics.new eldersReportLine).parser_output
      = "ELDERS: 7" ∧
    (VaultMetrics.gather_metrics VaultMetrics.new eldersReportLine).agebracket
      = .Child ∧
    stateCaptures adultsReportLine = some (.adults ['1', '1']) ∧
    (VaultMetrics.gather_metrics VaultMetrics.new adultsReportLine).adults = 0 ∧
    (VaultMetrics.gather_metrics VaultMetrics.new adultsReportLine).parser_output
      = "ADULTS: 11" ∧
    (VaultMetrics.gather_metrics VaultMetrics.new adultsReportLine).agebracket
      = .Child := by
  refine ⟨fun m line => ⟨(gather_metrics_frame m line).2.2,
    (gather_metrics_frame m line).2.1⟩, ?_, ?_, ?_, ?_, ?_, ?_, ?_, ?_⟩ <;> decide

/-- C4: the lifecycle bracket starts as Child (`VaultMetrics::new`), and
`parse_states` changes it only when the entry's raw text matches one of the
four recognized state-line shapes: on no match, and on the elder-count and
adult-count shapes, the bracket is unchanged; on the initializing and
promotion shapes it becomes the bracket named by the captured word, where
`Child`, `Adult`, `Elder` map to themselves and any other word maps to
`Unknown`. -/
theorem c4_agebracket_transitions (m : VaultMetrics) (e : LogEntry) :
    VaultMetrics.new.agebracket = .Child ∧
    (stateCaptures e.logstring = none →
      (VaultMetrics.parse_states m e).1.agebracket = m.agebracket) ∧
    (∀ d, stateCaptures e.logstring = some (.elders d) →
      (VaultMetrics.parse_states m e).1.agebracket = m.agebracket) ∧
    (∀ d, stateCaptures e.logstring = some (.adults d) →
      (VaultMetrics.parse_states m e).1.agebracket = m.agebracket) ∧
    (∀ w, stateCaptures e.logstring = some (.initas w) ∨
          stateCaptures e.logstring = some (.promoteto w) →
      (VaultMetrics.parse_states m e).1.agebracket
        = bracketFromString (String.mk w)) ∧
    (bracketFromString "Child" = .Child ∧ bracketFromString "Adult" = .Adult ∧
      bracketFromString "Elder" = .Elder) ∧
    (∀ s : String, s ≠ "Child" → s ≠ "Adult" → s ≠ "Elder" →
      bracketFromString s = .Unknown) := by
  refine ⟨rfl, ?_, ?_, ?_, ?_, ⟨rfl, rfl, rfl⟩, ?_⟩
  · intro h
    simp [VaultMetrics.parse_states, h]
  · intro d h
    simp [VaultMetrics.parse_states, h]
  · intro d h
    simp [VaultMetrics.parse_states, h]
  · rintro w (h | h) <;> simp [VaultMetrics.parse_states, h]
  · intro s h1 h2 h3
    simp [bracketFromString, h1, h2, h3]

/-- Concrete promotion line used as a witness input for C4. -/
def promotedLine : String :=
  "INFO 2020-07-08T19:58:26.841778689+01:00 [src/vault.rs:132] Vault promoted to Elder"

/-- Concrete entry whose raw text is `promotedLine`. -/
def promotedEntry : LogEntry :=
  { logstring := promotedLine, category := "INFO", time := none,
    source := "[src/vault.rs:132]", message := "Vault promoted to Elder",
    parser_output := "" }

theorem c4_agebracket_transitions_witness :
    (VaultMetrics.parse_states VaultMetrics.new promotedEntry).1.agebracket
      = VaultAgebracket.Elder := by
  have h := (c4_agebracket_transitions VaultMetrics.new promotedEntry).2.2.2.2.1
    ("Elder".data) (Or.inr (by decide))
  rw [h]
  decide

theorem gather_most_recent_isSome (m : VaultMetrics) (line : String)
    (h : m.most_recent.isSome = true) :
    (VaultMetrics.gather_metrics m line).most_recent.isSome = true := by
  cases hd : LogEntry.decode line with
  | some e =>
    rw [gather_metrics_decode_some m line e hd]
    cases ht : e.time with
    | none => rw [(gatherEntry_timeline_none m e ht).2]; exact h
    | some t => rw [(gatherEntry_timeline_some m e t ht).2]; rfl
  | none =>
    rw [gather_metrics_decode_none m line hd]
    rcases hp : VaultMetrics.parse_start m line with ⟨m', oe⟩
    have hf := parse_start_frame m line
    rw [hp] at hf
    cases oe with
    | none =>
      show m'.most_recent.isSome = true
      rw [hf.2.1]
      exact h
    | some e =>
      show (VaultMetrics.gatherEntry m' e).most_recent.isSome = true
      have hs := parse_start_some_spec m line m' e hp
      cases ht : e.time with
      | none =>
        rw [(gatherEntry_timeline_none m' e ht).2, hs.2.2.2.2.1]
        exact h
      | some t => rw [(gatherEntry_timeline_some m' e t ht).2]; rfl

theorem gather_timeline_mem (m : VaultMetrics) (line : String)
    (h : m.most_recent.isSome = true) :
    ∀ x, x ∈ (VaultMetrics.gather_metrics m line).timeline →
      x ∈ m.timeline ∨ x.time.isSome = true := by
  intro x hx
  cases hd : LogEntry.decode line with
  | some e =>
    rw [gather_metrics_decode_some m line e hd] at hx
    obtain ⟨e1, hT, _, _, _, _, ht⟩ := gatherEntry_timeline_fields m e
    rw [hT, List.mem_append, List.mem_singleton] at hx
    rcases hx with hx | hx
    · exact Or.inl hx
    · subst hx
      right
      rw [ht]
      cases hte : e.time with
      | none => exact h
      | some t => rfl
  | none =>
    rw [gather_metrics_decode_none m line hd] at hx
    rcases hp : VaultMetrics.parse_start m line with ⟨m', oe⟩
    rw [hp] at hx
    have hf := parse_start_frame m line
    rw [hp] at hf
    cases oe with
    | none =>
      replace hx : x ∈ m'.timeline := hx
      rw [hf.2.2.1] at hx
      exact Or.inl hx
    | some e =>
      replace hx : x ∈ (VaultMetrics.gatherEntry m' e).timeline := hx
      have hs := parse_start_some_spec m line m' e hp
      obtain ⟨e1, hT, _, _, _, _, ht⟩ := gatherEntry_timeline_fields m' e
      rw [hT, List.mem_append, List.mem_singleton] at hx
      rcases hx with hx | hx
      · rw [hs.2.2.2.2.2.1] at hx
        exact Or.inl hx
      · subst hx
        right
        rw [ht]
        cases hte : e.time with
        | none => rw [hs.2.2.2.2.1]; exact h
        | some t => rfl

/-- C5: an entry decoded without its own timestamp is appended to the
timeline carrying the most-recently-seen timestamp of the stream (whatever
it is, including none when nothing has been seen), leaving `most_recent`
unchanged; an entry carrying its own timestamp is appended as-is and
updates `most_recent` to it; consequently, once `most_recent` is set, every
entry appended to the timeline by any further processing has a non-none
effective timestamp. -/
theorem c5_timestamp_inheritance (m : VaultMetrics) (line : String)
    (ls : List String) :
    (∀ e, LogEntry.decode line = some e → e.time = none →
      (VaultMetrics.gather_metrics m line).timeline
          = m.timeline ++ [{ e with time := m.most_recent }] ∧
      (VaultMetrics.gather_metrics m line).most_recent = m.most_recent) ∧
    (∀ e t, LogEntry.decode line = some e → e.time = some t →
      (VaultMetrics.gather_metrics m line).timeline = m.timeline ++ [e] ∧
      (VaultMetrics.gather_metrics m line).most_recent = some t) ∧
    (m.most_recent.isSome = true →
      ∀ x, x ∈ (List.foldl VaultMetrics.gather_metrics m ls).timeline →
        x ∈ m.timeline ∨ x.time.isSome = true) := by
  refine ⟨?_, ?_, ?_⟩
  · intro e hd ht
    rw [gather_metrics_decode_some m line e hd]
    exact gatherEntry_timeline_none m e ht
  · intro e t hd ht
    rw [gather_metrics_decode_some m line e hd]
    exact gatherEntry_timeline_some m e t ht
  · induction ls generalizing m with
    | nil => intro _ x hx; exact Or.inl hx
    | cons l rest ih =>
      intro h x hx
      rw [List.foldl_cons] at hx
      rcases ih (VaultMetrics.gather_metrics m l)
          (gather_most_recent_isSome m l h) x hx with hmem | hsome
      · exact gather_timeline_mem m l h x hmem
      · exact Or.inr hsome

/-- Log line whose 35-character timestamp field is not valid RFC 3339 (the
date-time separator is `X`). -/
def badTsLine : String :=
  "INFO 2020-07-08X19:58:26.841778689+01:00 [src] msg"

/-- The entry `badTsLine` decodes to: captures kept, no timestamp. -/
def badTsEntry : LogEntry :=
  { logstring := badTsLine, category := "INFO", time := none,
    source := "[src]", message := "msg",
    parser_output := "c: INFO, t: None, s: [src], m: msg" }

theorem c5_timestamp_inheritance_witness :
    (VaultMetrics.gather_metrics VaultMetrics.new badTsLine).timeline
        = VaultMetrics.new.timeline ++ [badTsEntry] ∧
    (VaultMetrics.gather_metrics VaultMetrics.new badTsLine).most_recent
        = VaultMetrics.new.most_recent := by
  have h := (c5_timestamp_inheritance VaultMetrics.new badTsLine []).1 badTsEntry
    (by decide) (by decide)
  exact ⟨h.1, h.2⟩

/-- The structured example line of the spec. -/
def infoExampleLine : String :=
  "INFO 2020-07-08T19:58:26.841778689+01:00 [src/bin/safe_vault.rs:114] started"

/-- The timestamp carried by `infoExampleLine`. -/
def infoExampleTime : Timestamp := ⟨2020, 7, 8, 19, 58, 26, 841778689, 60⟩

/-- C6: `LogEntry::decode` is deterministic (a pure function of the line in
this embedding); a line matching the primary pattern whose 35-character
timestamp field fails to parse still yields an entry with its category,
source and message captured but no timestamp; and the spec's example line
decodes to category INFO, the bracketed source, message `started`, with the
timestamp parsed successfully. -/
theorem c6_decoder (line : String) :
    (LogEntry.decode line = LogEntry.decode line) ∧
    (∀ cat ts src msg,
      logLineCaptures line = some (cat, ts, src, msg) →
      parseRFC3339 ts = none →
      (LogEntry.decode line).map (fun e => (e.category, e.source, e.message, e.time))
        = some (cat, src, msg, none)) ∧
    ((LogEntry.decode infoExampleLine).map
        (fun e => (e.category, e.source, e.message, e.time))
      = some ("INFO", "[src/bin/safe_vault.rs:114]", "started",
              some infoExampleTime)) := by
  refine ⟨rfl, ?_, by decide⟩
  intro cat ts src msg hcap hts
  have hne : line.isEmpty = false := by
    rw [Bool.eq_false_iff]
    intro hemp
    rw [String.isEmpty_iff] at hemp
    subst hemp
    simp only [show logLineCaptures "" = none from rfl] at hcap
    exact Option.noConfusion hcap
  simp only [LogEntry.decode, hne, Bool.false_eq_true, if_false,
    LogEntry.parse_info_line, hcap, hts]
  rfl

theorem c6_decoder_witness :
    (LogEntry.decode badTsLine).map
        (fun e => (e.category, e.source, e.message, e.time))
      = some ("INFO", "[src]", "msg", none) :=
  (c6_decoder badTsLine).2.1 "INFO" "2020-07-08X19:58:26.841778689+01:00"
    "[src]" "msg" (by decide) (by decide)

theorem parse_start_of_banner (m : VaultMetrics) (line : String)
    (hp : startBanner.data.isPrefixOf line.data = true) :
    VaultMetrics.parse_start m line
      = ({ m with running_message := some line
                  running_version :=
                    some (String.mk (line.data.drop startBanner.length))
                  vault_started := m.most_recent },
         some { logstring := line, category := "START", time := m.most_recent,
                source := "", message := line,
                parser_output := "START at " ++
                  (match m.most_recent with
                   | some t => timestampDisplay t
                   | none => "None") }) := by
  simp [VaultMetrics.parse_start, hp]

theorem gather_metrics_decode_none_start_some (m : VaultMetrics) (line : String)
    (m' : VaultMetrics) (e : LogEntry)
    (hd : LogEntry.decode line = none)
    (hp : VaultMetrics.parse_start m line = (m', some e)) :
    VaultMetrics.gather_metrics m line = VaultMetrics.gatherEntry m' e := by
  unfold VaultMetrics.gather_metrics
  rw [hd, hp]

theorem gather_metrics_banner (m : VaultMetrics) (line : String)
    (hd : LogEntry.decode line = none)
    (hp : startBanner.data.isPrefixOf line.data = true) :
    (VaultMetrics.gather_metrics m line).running_version
        = some (String.mk (line.data.drop startBanner.length)) ∧
    (VaultMetrics.gather_metrics m line).running_message = some line ∧
    (VaultMetrics.gather_metrics m line).vault_started = m.most_recent ∧
    ∃ e1, (VaultMetrics.gather_metrics m line).timeline = m.timeline ++ [e1] ∧
      e1.category = "START" ∧ e1.message = line ∧ e1.time = m.most_recent := by
  have hps := parse_start_of_banner m line hp
  rw [gather_metrics_decode_none_start_some m line _ _ hd hps]
  refine ⟨?_, ?_, ?_, ?_⟩
  · rw [(gatherEntry_frame _ _).2.2.1]
  · rw [(gatherEntry_frame _ _).2.1]
  · rw [(gatherEntry_frame _ _).1]
  · obtain ⟨e1, hT, hcat, hmsg, _, _, htime⟩ :=
      gatherEntry_timeline_fields
        { m with running_message := some line
                 running_version :=
                   some (String.mk (line.data.drop startBanner.length))
                 vault_started := m.most_recent }
        { logstring := line, category := "START", time := m.most_recent,
          source := "", message := line,
          parser_output := "START at " ++
            (match m.most_recent with
             | some t => timestampDisplay t
             | none => "None") }
    refine ⟨e1, ?_, hcat, hmsg, ?_⟩
    · rw [hT]
    · simp only [htime]
      cases hmr : m.most_recent <;> simp [hmr]

/-- C7: a line that fails the primary decode and begins with the literal
`Running safe-vault ` produces a synthetic START entry whose message is the
whole line, records the remainder of the line as the running version, the
whole line as the running message, and the most-recent timestamp known so
far as the start timestamp; the fallback's state effects occur only when
the primary decode fails (on a successful decode the start-banner state is
untouched); concretely, `Running safe-vault v0.24.0` records running
version `v0.24.0`. -/
theorem c7_start_banner (m : VaultMetrics) (line : String) :
    (LogEntry.decode line = none →
     startBanner.data.isPrefixOf line.data = true →
      (VaultMetrics.gather_metrics m line).running_version
          = some (String.mk (line.data.drop startBanner.length)) ∧
      (VaultMetrics.gather_metrics m line).running_message = some line ∧
      (VaultMetrics.gather_metrics m line).vault_started = m.most_recent ∧
      ∃ e1, (VaultMetrics.gather_metrics m line).timeline = m.timeline ++ [e1] ∧
        e1.category = "START" ∧ e1.message = line ∧ e1.time = m.most_recent) ∧
    (∀ e, LogEntry.decode line = some e →
      (VaultMetrics.gather_metrics m line).running_version = m.running_version ∧
      (VaultMetrics.gather_metrics m line).running_message = m.running_message ∧
      (VaultMetrics.gather_metrics m line).vault_started = m.vault_started) ∧
    ((VaultMetrics.gather_metrics VaultMetrics.new
        "Running safe-vault v0.24.0").running_version = some "v0.24.0") := by
  refine ⟨gather_metrics_banner m line, ?_, by decide⟩
  intro e hd
  rw [gather_metrics_decode_some m line e hd]
  exact ⟨(gatherEntry_frame m e).2.2.1, (gatherEntry_frame m e).2.1,
    (gatherEntry_frame m e).1⟩

theorem c7_start_banner_witness :
    (VaultMetrics.gather_metrics VaultMetrics.new
        "Running safe-vault v0.24.0").running_message
      = some "Running safe-vault v0.24.0" :=
  ((c7_start_banner VaultMetrics.new "Running safe-vault v0.24.0").1
    (by decide) (by decide)).2.1

/-- C3: a live tailed line for a registered path is appended to that
monitor's content store — the updated map contains the matching monitor
with the line pushed through `append_to_content` (first conjunct), an
operation that changes the content store by exactly the bounded push and
leaves the metrics state untouched (second conjunct) — and it is appended
there ONLY: every monitor's metrics state is unchanged (third conjunct)
and monitors whose path differs are entirely unchanged (fourth conjunct);
a live line whose path has no registered monitor leaves the whole map
unchanged (fifth conjunct); whereas initial-load processing routes the
line through both the metrics engine and the content store (sixth
conjunct). -/
theorem c3_live_line_routing (monitors : List (String × LogMonitor))
    (source line : String) (mon : LogMonitor) :
    (∀ k m', (k, m') ∈ monitors → k = source →
      (k, m'.append_to_content line) ∈ handle_live_line monitors source line) ∧
    (∀ m2 : LogMonitor,
      (m2.append_to_content line).content
          = boundedAppend m2.max_content m2.content line ∧
      (m2.append_to_content line).metrics = m2.metrics) ∧
    ((handle_live_line monitors source line).map (fun p => (p.1, p.2.metrics))
        = monitors.map (fun p => (p.1, p.2.metrics))) ∧
    (∀ k m', (k, m') ∈ monitors → k ≠ source →
      (k, m') ∈ handle_live_line monitors source line) ∧
    ((∀ p ∈ monitors, p.1 ≠ source) →
      handle_live_line monitors source line = monitors) ∧
    ((LogMonitor.process_line mon line).metrics
        = VaultMetrics.gather_metrics mon.metrics line ∧
     (LogMonitor.process_line mon line).content
        = boundedAppend mon.max_content mon.content line) := by
  refine ⟨?_, fun m2 => ⟨rfl, rfl⟩, ?_, ?_, ?_, rfl, rfl⟩
  · intro k m' hmem hk
    refine List.mem_map.mpr ⟨(k, m'), hmem, ?_⟩
    simp [hk]
  · induction monitors with
    | nil => rfl
    | cons p rest ih =>
      simp only [handle_live_line, List.map_cons] at ih ⊢
      rw [ih]
      by_cases hk : p.1 = source <;>
        simp [hk, LogMonitor.append_to_content]
  · intro k m' hmem hne
    refine List.mem_map.mpr ⟨(k, m'), hmem, ?_⟩
    simp [hne]
  · induction monitors with
    | nil => intro _; rfl
    | cons p rest ih =>
      intro habs
      show (if p.1 = source then (p.1, p.2.append_to_content line) else p)
          :: handle_live_line rest source line = p :: rest
      rw [if_neg (habs p (List.mem_cons_self p rest))]
      exact congrArg (p :: ·)
        (ih (fun q hq => habs q (List.mem_cons_of_mem p hq)))

theorem c3_live_line_routing_witness :
    (("a.log", (LogMonitor.new "a.log" 5 0).append_to_content "x")
        ∈ handle_live_line [("a.log", LogMonitor.new "a.log" 5 0)] "a.log" "x") ∧
    (("a.log", LogMonitor.new "a.log" 5 0)
        ∈ handle_live_line [("a.log", LogMonitor.new "a.log" 5 0)] "b.log" "x") ∧
    (handle_live_line [("a.log", LogMonitor.new "a.log" 5 0)] "b.log" "x"
        = [("a.log", LogMonitor.new "a.log" 5 0)]) := by
  have hpos := c3_live_line_routing [("a.log", LogMonitor.new "a.log" 5 0)]
    "a.log" "x" (LogMonitor.new "a.log" 5 0)
  have h := c3_live_line_routing [("a.log", LogMonitor.new "a.log" 5 0)]
    "b.log" "x" (LogMonitor.new "a.log" 5 0)
  exact ⟨hpos.1 "a.log" (LogMonitor.new "a.log" 5 0) (by simp) rfl,
    h.2.2.2.1 "a.log" (LogMonitor.new "a.log" 5 0) (by simp) (by decide),
    h.2.2.2.2.1 (by simp)⟩

/-- C8 counterexample: a file unopenable for a reason other than
nonexistence (a permission failure) is NOT fatal — `load_logfile` matches
`Err(_e) => return Ok(())` on every open error, so it returns success with
the monitor unchanged, contradicting the claim that such a failure aborts
startup with an error. -/
theorem c8_counterexample_permission_failure_not_fatal :
    LogMonitor.load_logfile (Except.error IOErrorKind.permissionDenied)
        (LogMonitor.new "vault.log" 100 0)
      = Except.ok (LogMonitor.new "vault.log" 100 0) := rfl

/-- C8 amended: at startup, loading a monitored file that cannot be opened
— whether it does not exist or the open fails for any other reason such as
a permission failure — is not an error: the monitor keeps its empty content
store and empty metrics and `load_logfile` returns success. -/
theorem c8_amended_any_open_failure_not_fatal (k : IOErrorKind) (f : String)
    (N i : Nat) :
    (LogMonitor.new f N i).content = [] ∧
    (LogMonitor.new f N i).metrics = VaultMetrics.new ∧
    LogMonitor.load_logfile (Except.error k) (LogMonitor.new f N i)
      = Except.ok (LogMonitor.new f N i) :=
  ⟨rfl, rfl, rfl⟩

/-- C9: in the modelled pair of consecutive elapsed-time checks, every
emitted Tick advances the deadline exactly once (ticks = advances), at most
one Tick is emitted per elapsed deadline — when the first check fires, the
second can fire only if a further full tick interval elapsed between the
two checks (`R ≤ d`), i.e. only for the freshly advanced deadline, never
for the same one — and with no intervening delay at most one Tick is
emitted; moreover a Tick is emitted whenever the deadline has elapsed. -/
theorem c9_tick_single_fire (R e1 d : Nat) (hR : 0 < R) :
    ((tickIteration R e1 d).2.1 = (tickIteration R e1 d).2.2) ∧
    ((tickIteration R e1 d).2.1 ≤ 2) ∧
    (R ≤ e1 → 1 ≤ (tickIteration R e1 d).2.1) ∧
    ((tickIteration R e1 d).2.1 = 2 → R ≤ d) ∧
    (d = 0 → (tickIteration R e1 d).2.1 ≤ 1) := by
  unfold tickIteration tickCheck
  by_cases h1 : R ≤ e1
  · simp only [h1, if_true]
    by_cases h2 : R ≤ d <;> simp [h2] <;> omega
  · simp only [h1, if_false]
    by_cases h2 : R ≤ e1 + d <;> simp [h2]

theorem c9_tick_single_fire_witness :
    ((tickIteration 10 25 0).2.1 = (tickIteration 10 25 0).2.2) ∧
    (1 ≤ (tickIteration 10 25 0).2.1) ∧
    ((tickIteration 10 25 0).2.1 ≤ 1) := by
  have h := c9_tick_single_fire 10 25 0 (by decide)
  exact ⟨h.1, h.2.2.1 (by decide), h.2.2.2.2 rfl⟩
